import Mathlib

/-!
Verification of the notification lifecycle engine of `eww-notify-go`.

The definitions below are a shallow embedding of the Go sources:

* `internal/state/notification.go` — the `Notification` record and `IsExpired`;
* `internal/state/state.go` — the store: `NextId`, `AddNotification`,
  `RemoveNotification`, `GetNotifications`, `findOldestNoticationIndex`,
  `CleanupExpiredNotifications`;
* `internal/daemon/daemon.go` — `HandleNotification`, `RemoveNotification`,
  `scheduleTimeout`;
* `internal/util/dbus/notify.go` — `GetByteHint`, `GetUrgency`,
  `ConfigKeyUrgency`;
* the DBus server's `CloseNotification` handler.

Machine integers (`uint32`) are modelled as `Nat` with explicit `% 2^32`
where overflow matters; `time.Time` is modelled as an `Int` count of
nanoseconds; Go maps appearing as data (the hints bag) are modelled as
association lists.
-/

namespace EwwNotify

/-- A dynamically-typed hint value (`map[string]any` entries coming from
DBus variants): a byte, a string, a boolean, a numeric value, or some
other payload (e.g. image data). -/
inductive HintValue where
  | byteV (b : Nat)
  | strV (s : String)
  | boolV (b : Bool)
  | intV (i : Int)
  | otherV (tag : Nat)
deriving DecidableEq, Repr

/-- The hints bag (`map[string]any`): an association list from keys to
dynamically-typed values. -/
abbrev Hints := List (String × HintValue)

/-- Map lookup on the hints bag. -/
def hintsGet (hints : Hints) (key : String) : Option HintValue :=
  (hints.find? (fun p => p.1 = key)).map Prod.snd

/-- Embeds `GetByteHint` (notify.go): the value at `key` if it exists and is a
byte, else nothing. -/
def GetByteHint (hints : Hints) (key : String) : Option Nat :=
  match hintsGet hints key with
  | some (HintValue.byteV b) => some b
  | _ => none

/-- Embeds `HintKeyUrgency` (notify.go). -/
def HintKeyUrgency : String := "urgency"

/-- Embeds `GetUrgency` (notify.go): the byte urgency hint, defaulting to 1. -/
def GetUrgency (hints : Hints) : Nat :=
  match GetByteHint hints HintKeyUrgency with
  | some urgency => urgency
  | none => 1

/-- Embeds `ConfigKeyUrgency` (notify.go): urgency byte to config key. -/
def ConfigKeyUrgency (urgency : Nat) : String :=
  if urgency = 0 then "low"
  else if urgency = 2 then "critical"
  else "normal"

/-- One notification record (`state.Notification`).  `Timestamp` is in
nanoseconds; `Timeout` is the `uint32` number of seconds. -/
structure Notification where
  Id : Nat
  Timeout : Nat
  Timestamp : Int
  NotifyType : Option String
  AppName : String
  AppIcon : String
  Summary : String
  Body : String
  Hints : Hints
  Actions : List String
  Widget : Option String
deriving DecidableEq, Repr

/-- Nanoseconds per second (`time.Second`). -/
def nsPerSec : Int := 1000000000

/-- Embeds `Notification.IsExpired` (notification.go), with the current time
passed explicitly: a zero timeout never expires; otherwise expired iff
`now` is strictly after `Timestamp + Timeout` seconds. -/
def IsExpired (n : Notification) (now : Int) : Bool :=
  if n.Timeout = 0 then false
  else decide (n.Timestamp + (n.Timeout : Int) * nsPerSec < now)

/-- Embeds `UINT32MOD = 2^32`: the modulus of Go's `uint32` arithmetic. -/
def UINT32MOD : Nat := 4294967296

/-- Embeds `NotificationState.NextId` (state.go): increment the `uint32`
counter and return it.  Result is `(returned id, new counter)`. -/
def NotificationState.NextId (counter : Nat) : Nat × Nat :=
  let counter1 := (counter + 1) % UINT32MOD
  (counter1, counter1)

/-- The counter after `k` successive `NextId` calls starting from
`counter` (the `k`-th call returns this value, for `k ≥ 1`). -/
def nextIdIter (counter : Nat) : Nat → Nat
  | 0 => counter
  | k + 1 => (NotificationState.NextId (nextIdIter counter k)).2

/-- The replace loop at the top of `AddNotification` (state.go): replace
the first record with the given id, in place. -/
def replaceFirst : List Notification → Notification → List Notification
  | [], _ => []
  | e :: rest, n => if e.Id = n.Id then n :: rest else e :: replaceFirst rest n

/-- The loop of `findOldestNoticationIndex` (state.go): scan the tail,
tracking `(oldestIdx, oldestTime)`; a strictly earlier timestamp takes
over, so ties keep the first-encountered index. -/
def findOldestLoop : List Notification → Nat → Nat → Int → Nat × Int
  | [], _, oldestIdx, oldestTime => (oldestIdx, oldestTime)
  | n :: rest, i, oldestIdx, oldestTime =>
    if n.Timestamp < oldestTime then findOldestLoop rest (i + 1) i n.Timestamp
    else findOldestLoop rest (i + 1) oldestIdx oldestTime

/-- Embeds `findOldestNoticationIndex` (state.go): index of the oldest record,
or nothing when the store is empty. -/
def findOldestNoticationIndex (l : List Notification) : Option Nat :=
  match l with
  | [] => none
  | n0 :: rest => some (findOldestLoop rest 1 0 n0.Timestamp).1

/-- Embeds `NotificationState.AddNotification` (state.go), acting on the record
list with the configured `maxNotifications`: replace in place when the
id exists; otherwise evict the oldest record when at a positive
capacity, then append. -/
def NotificationState.AddNotification (maxNotifications : Nat)
    (l : List Notification) (n : Notification) : List Notification :=
  if l.any (fun e => e.Id = n.Id) then replaceFirst l n
  else
    let l1 :=
      if 0 < maxNotifications ∧ maxNotifications ≤ l.length then
        match findOldestNoticationIndex l with
        | some oldestIdx => l.eraseIdx oldestIdx
        | none => l
      else l
    l1 ++ [n]

/-- The loop of `NotificationState.RemoveNotification` (state.go):
delete the first record with the given id; result is
`(new list, found)`. -/
def removeNotificationLoop : List Notification → Nat → List Notification × Bool
  | [], _ => ([], false)
  | e :: rest, id =>
    if e.Id = id then (rest, true)
    else
      let r := removeNotificationLoop rest id
      (e :: r.1, r.2)

/-- Embeds `NotificationState.RemoveNotification` (state.go). -/
def NotificationState.RemoveNotification (l : List Notification) (id : Nat) :
    List Notification × Bool :=
  removeNotificationLoop l id

/-- The loop of `CleanupExpiredNotifications` (state.go): partition into
expired ids and remaining records, preserving order. -/
def cleanupLoop (now : Int) : List Notification → List Nat → List Notification →
    List Nat × List Notification
  | [], expiredIds, remaining => (expiredIds, remaining)
  | n :: rest, expiredIds, remaining =>
    if IsExpired n now then cleanupLoop now rest (expiredIds ++ [n.Id]) remaining
    else cleanupLoop now rest expiredIds (remaining ++ [n])

/-- Embeds `NotificationState.CleanupExpiredNotifications` (state.go), with the
current time passed explicitly: `(expired ids, remaining records)`. -/
def NotificationState.CleanupExpiredNotifications (l : List Notification)
    (now : Int) : List Nat × List Notification :=
  cleanupLoop now l [] []

/-- The daemon-level configuration fields the engine consumes
(`config.Config`): capacity and the per-urgency timeout durations
(`Timeout.ByUrgency`), plus the default widget key. -/
structure Config where
  maxNotifications : Nat
  timeoutLow : Nat
  timeoutNormal : Nat
  timeoutCritical : Nat
  ewwDefaultNotificationKey : Option String
deriving DecidableEq, Repr

/-- The mutable daemon state the embedded operations act on: the store's
record list and id counter (`state.NotificationState`) and the set of
ids with a pending timeout task (`Daemon.timeoutTasks` keys). -/
structure DaemonState where
  notifications : List Notification
  timers : List Nat
  idCounter : Nat
deriving DecidableEq, Repr

/-- Closure reasons (`state.NotificationCloseReason`). -/
inductive CloseReason where
  | expired
  | dismiss
  | closeNotification
  | other
deriving DecidableEq, Repr

/-- A `NotificationClosed` signal emission: `(id, reason)`. -/
abbrev ClosedEvent := Nat × CloseReason

/-- Embeds `Daemon.scheduleTimeout`'s effect on the pending-timer map
(daemon.go): cancel any existing task for `id`, then register a fresh
one. -/
def scheduleTimeout (timers : List Nat) (id : Nat) : List Nat :=
  timers.filter (fun t => t ≠ id) ++ [id]

/-- The arguments of a `Notify` request (`Daemon.HandleNotification`'s
parameters).  `expireTimeout` is the caller-requested timeout (`int32`),
accepted by the protocol surface. -/
structure NotifyRequest where
  appName : String
  replaceId : Nat
  appIcon : String
  summary : String
  body : String
  actions : List String
  hints : Hints
  expireTimeout : Int
deriving DecidableEq, Repr

/-- The urgency switch of `Daemon.HandleNotification` (daemon.go lines
100–112): derive the urgency key from the hints and look up the
configured duration; the caller-requested timeout plays no part. -/
def resolveTimeout (cfg : Config) (hints : Hints) : Nat :=
  match ConfigKeyUrgency (GetUrgency hints) with
  | "low" => cfg.timeoutLow
  | "critical" => cfg.timeoutCritical
  | _ => cfg.timeoutNormal

/-- The record construction of `Daemon.HandleNotification` (daemon.go
lines 116–128): every field comes from the request, the resolved
timeout, the current time, and the configured default widget key. -/
def buildNotification (cfg : Config) (req : NotifyRequest) (id : Nat)
    (now : Int) : Notification :=
  { Id := id
    Timeout := resolveTimeout cfg req.hints
    Timestamp := now
    NotifyType := none
    AppName := req.appName
    AppIcon := req.appIcon
    Summary := req.summary
    Body := req.body
    Hints := req.hints
    Actions := req.actions
    Widget := cfg.ewwDefaultNotificationKey }

/-- Embeds `Daemon.HandleNotification` (daemon.go), with the current time
passed explicitly.  Result is `(new daemon state, returned id, the
record that was constructed and upserted)`. -/
def Daemon.HandleNotification (cfg : Config) (s : DaemonState)
    (req : NotifyRequest) (now : Int) : DaemonState × Nat × Notification :=
  let idAlloc :=
    if req.replaceId ≠ 0 then (req.replaceId, s.idCounter)
    else NotificationState.NextId s.idCounter
  let notificationId := idAlloc.1
  let timeout := resolveTimeout cfg req.hints
  let notification := buildNotification cfg req notificationId now
  let notifications1 :=
    NotificationState.AddNotification cfg.maxNotifications s.notifications notification
  let timers1 := if timeout > 0 then scheduleTimeout s.timers notificationId else s.timers
  (⟨notifications1, timers1, idAlloc.2⟩, notificationId, notification)

/-- The outcome of `Daemon.RemoveNotification`: the new daemon state,
whether the call succeeded (`false` = "not found" error), and whether a
render refresh (`updateDisplay`) was triggered. -/
structure RemoveOutcome where
  state : DaemonState
  ok : Bool
  refreshed : Bool
deriving DecidableEq, Repr

/-- Embeds `Daemon.RemoveNotification` (daemon.go): cancel and delete the
pending timeout task for `id` if one exists, then remove the record from
the store; on "not found" return an error without refreshing. -/
def Daemon.RemoveNotification (s : DaemonState) (id : Nat) : RemoveOutcome :=
  let timers1 := s.timers.filter (fun t => t ≠ id)
  let removed := NotificationState.RemoveNotification s.notifications id
  if removed.2 then ⟨⟨removed.1, timers1, s.idCounter⟩, true, true⟩
  else ⟨⟨removed.1, timers1, s.idCounter⟩, false, false⟩

/-- The outcome of the DBus `CloseNotification` handler: new daemon
state, emitted `NotificationClosed` events, success flag. -/
structure CloseOutcome where
  state : DaemonState
  events : List ClosedEvent
  ok : Bool
deriving DecidableEq, Repr

/-- Embeds `NotificationServer.CloseNotification` (the DBus handler): it calls
`state.RemoveNotification` directly — the pending-timer map is not
touched — and on success emits `NotificationClosed(id, CloseNotification)`. -/
def NotificationServer.CloseNotification (s : DaemonState) (id : Nat) : CloseOutcome :=
  let removed := NotificationState.RemoveNotification s.notifications id
  if removed.2 then
    ⟨⟨removed.1, s.timers, s.idCounter⟩, [(id, CloseReason.closeNotification)], true⟩
  else ⟨⟨removed.1, s.timers, s.idCounter⟩, [], false⟩

/-- The fire branch of the goroutine started by `Daemon.scheduleTimeout`
(daemon.go): if the task for `id` was not cancelled, it removes the
record (ignoring whether one was found), unconditionally emits
`NotificationClosed(id, Expired)`, and drops its task entry. -/
def timerFire (s : DaemonState) (id : Nat) : DaemonState × List ClosedEvent :=
  if id ∈ s.timers then
    let removed := NotificationState.RemoveNotification s.notifications id
    (⟨removed.1, s.timers.filter (fun t => t ≠ id), s.idCounter⟩,
     [(id, CloseReason.expired)])
  else (s, [])

/-- The IPC control-channel `close <id>` handler (`handleCloseCommand`):
`Daemon.RemoveNotification`, then on success emit
`NotificationClosed(id, Dismiss)`.  Result is
`(new state, emitted events, success)`. -/
def handleCloseCommand (s : DaemonState) (id : Nat) :
    DaemonState × List ClosedEvent × Bool :=
  let r := Daemon.RemoveNotification s id
  if r.ok then (r.state, [(id, CloseReason.dismiss)], true)
  else (r.state, [], false)

/-!
## Aliasing model for `GetNotifications`

Go's `GetNotifications` copies the slice of `Notification` structs
element-wise (`make` + `copy`), but a struct copy shares the `Hints` map
and `Actions` backing array by reference.  To reason about aliasing we
re-embed the store with an explicit heap: records hold *addresses* of
their hints map and actions slice, slice backings live at addresses of
their own, and every store mutation writes through the live slice's
address, exactly as the Go code does.
-/

/-- A stored record as it sits in a slice backing array: plain fields by
value, hints map and actions slice by reference (heap address). -/
structure NotifRecord where
  Id : Nat
  Timeout : Nat
  Timestamp : Int
  NotifyType : Option String
  AppName : String
  AppIcon : String
  Summary : String
  Body : String
  hintsRef : Nat
  actionsRef : Nat
deriving DecidableEq, Repr

/-- The heap: slice backings of `NotifRecord`, hint-map cells, and
actions-array cells, each addressed by `Nat`; `nextArr` is the next
fresh slice address. -/
structure Heap where
  arrays : Nat → List NotifRecord
  hintCells : Nat → Hints
  actionCells : Nat → List String
  nextArr : Nat

/-- The store with an explicit heap: `live` is the address of the slice
behind `ns.Notifications`. -/
structure StoreSt where
  heap : Heap
  live : Nat

/-- Embeds `replaceFirst` over heap records (same loop as in `AddNotification`). -/
def replaceFirstR : List NotifRecord → NotifRecord → List NotifRecord
  | [], _ => []
  | e :: rest, n => if e.Id = n.Id then n :: rest else e :: replaceFirstR rest n

/-- Embeds `findOldestLoop` over heap records. -/
def findOldestLoopR : List NotifRecord → Nat → Nat → Int → Nat × Int
  | [], _, oldestIdx, oldestTime => (oldestIdx, oldestTime)
  | n :: rest, i, oldestIdx, oldestTime =>
    if n.Timestamp < oldestTime then findOldestLoopR rest (i + 1) i n.Timestamp
    else findOldestLoopR rest (i + 1) oldestIdx oldestTime

/-- Embeds `findOldestNoticationIndex` over heap records. -/
def findOldestNoticationIndexR (l : List NotifRecord) : Option Nat :=
  match l with
  | [] => none
  | n0 :: rest => some (findOldestLoopR rest 1 0 n0.Timestamp).1

/-- Embeds `AddNotification`'s list transformation over heap records. -/
def addNotificationR (maxNotifications : Nat) (l : List NotifRecord)
    (n : NotifRecord) : List NotifRecord :=
  if l.any (fun e => e.Id = n.Id) then replaceFirstR l n
  else
    let l1 :=
      if 0 < maxNotifications ∧ maxNotifications ≤ l.length then
        match findOldestNoticationIndexR l with
        | some oldestIdx => l.eraseIdx oldestIdx
        | none => l
      else l
    l1 ++ [n]

/-- Embeds `RemoveNotification`'s list transformation over heap records. -/
def removeNotificationLoopR : List NotifRecord → Nat → List NotifRecord × Bool
  | [], _ => ([], false)
  | e :: rest, id =>
    if e.Id = id then (rest, true)
    else
      let r := removeNotificationLoopR rest id
      (e :: r.1, r.2)

/-- Embeds `IsExpired` over heap records. -/
def isExpiredR (n : NotifRecord) (now : Int) : Bool :=
  if n.Timeout = 0 then false
  else decide (n.Timestamp + (n.Timeout : Int) * nsPerSec < now)

/-- Embeds `CleanupExpiredNotifications`'s loop over heap records. -/
def cleanupLoopR (now : Int) : List NotifRecord → List Nat → List NotifRecord →
    List Nat × List NotifRecord
  | [], expiredIds, remaining => (expiredIds, remaining)
  | n :: rest, expiredIds, remaining =>
    if isExpiredR n now then cleanupLoopR now rest (expiredIds ++ [n.Id]) remaining
    else cleanupLoopR now rest expiredIds (remaining ++ [n])

/-- Write new content through the live slice address (every store
mutation ends this way: element assignment, `slices.Delete`, `append`,
or rebinding `ns.Notifications`). -/
def setLive (s : StoreSt) (content : List NotifRecord) : StoreSt :=
  ⟨{ s.heap with arrays := Function.update s.heap.arrays s.live content }, s.live⟩

/-- Embeds `NotificationState.GetNotifications` (state.go) in the heap model:
allocate a fresh backing array, copy the live records into it
element-wise (struct copy: `hintsRef`/`actionsRef` are copied as
addresses), and return its address. -/
def NotificationState.GetNotifications (s : StoreSt) : Nat × StoreSt :=
  let a := s.heap.nextArr
  (a,
   ⟨{ s.heap with
        arrays := Function.update s.heap.arrays a (s.heap.arrays s.live)
        nextArr := a + 1 },
    s.live⟩)

/-- A store mutation, as in state.go: upsert, remove, or expiry sweep. -/
inductive StoreOp where
  | add (maxNotifications : Nat) (n : NotifRecord)
  | remove (id : Nat)
  | cleanup (now : Int)

/-- Apply one store mutation to the heap-modelled store. -/
def applyOp (s : StoreSt) : StoreOp → StoreSt
  | StoreOp.add maxNotifications n =>
    setLive s (addNotificationR maxNotifications (s.heap.arrays s.live) n)
  | StoreOp.remove id =>
    setLive s (removeNotificationLoopR (s.heap.arrays s.live) id).1
  | StoreOp.cleanup now =>
    setLive s (cleanupLoopR now (s.heap.arrays s.live) [] []).2

/-- Apply a sequence of store mutations. -/
def applyOps (s : StoreSt) (ops : List StoreOp) : StoreSt :=
  ops.foldl applyOp s

/-- Everything observable through the slice at address `a`: each record
together with the hints map and actions list its references point to. -/
def observeArr (h : Heap) (a : Nat) : List (NotifRecord × Hints × List String) :=
  (h.arrays a).map (fun r => (r, h.hintCells r.hintsRef, h.actionCells r.actionsRef))

/-- The timestamp at position `j` of the list (0 when out of range);
convenience accessor for index-based statements. -/
def tsAt (l : List Notification) (j : Nat) : Int :=
  match l[j]? with
  | some n => n.Timestamp
  | none => 0

/-- Concrete sample records used by witnesses. -/
def demoN1 : Notification :=
  ⟨1, 5, 0, none, "app", "", "hello", "body", [], [], none⟩

def demoN2 : Notification :=
  ⟨2, 0, 7, none, "mail", "", "new message", "", [("urgency", HintValue.byteV 2)], ["ok", "Ok"], none⟩

def demoN3 : Notification :=
  ⟨3, 10, 3, none, "chat", "", "ping", "", [], [], none⟩

/-- A concrete notify request used by witnesses. -/
def demoReq : NotifyRequest :=
  ⟨"app", 1, "", "hello", "body", [], [("urgency", HintValue.byteV 0)], 4000⟩

/-- A concrete configuration used by witnesses: capacity 0 (unbounded),
`low` timeout 0 (persistent), `normal` 10, `critical` 0. -/
def demoCfg : Config := ⟨0, 0, 10, 0, none⟩

/-- Concrete heap and store used by the snapshot witness. -/
def demoHeap : Heap :=
  ⟨fun _ => [⟨1, 5, 0, none, "app", "", "hello", "body", 0, 0⟩], fun _ => [], fun _ => [], 1⟩

def demoStore : StoreSt := ⟨demoHeap, 0⟩

/-!
## Lemmas about the store operations
-/

lemma cleanupLoop_eq (now : Int) :
    ∀ (l : List Notification) (ids : List Nat) (rem : List Notification),
      cleanupLoop now l ids rem =
        (ids ++ (l.filter (fun n => IsExpired n now)).map (fun n => n.Id),
         rem ++ l.filter (fun n => !(IsExpired n now)))
  | [], ids, rem => by simp [cleanupLoop]
  | n :: rest, ids, rem => by
    by_cases h : IsExpired n now
    · simp [cleanupLoop, h, cleanupLoop_eq now rest]
    · simp [cleanupLoop, h, cleanupLoop_eq now rest]

lemma cleanup_eq (l : List Notification) (now : Int) :
    NotificationState.CleanupExpiredNotifications l now =
      ((l.filter (fun n => IsExpired n now)).map (fun n => n.Id),
       l.filter (fun n => !(IsExpired n now))) := by
  simp [NotificationState.CleanupExpiredNotifications, cleanupLoop_eq]

lemma isExpired_iff (n : Notification) (now : Int) :
    IsExpired n now = true ↔
      0 < n.Timeout ∧ n.Timestamp + (n.Timeout : Int) * nsPerSec < now := by
  by_cases h : n.Timeout = 0
  · simp [IsExpired, h]
  · simp [IsExpired, h, Nat.pos_of_ne_zero h]

lemma nextIdIter_succ (c : Nat) : ∀ k, nextIdIter c (k + 1) = (c + k + 1) % UINT32MOD
  | 0 => by simp [nextIdIter, NotificationState.NextId]
  | k + 1 => by
    show (NotificationState.NextId (nextIdIter c (k + 1))).2 = _
    rw [nextIdIter_succ c k]
    show ((c + k + 1) % UINT32MOD + 1) % UINT32MOD = _
    rw [Nat.mod_add_mod]
    congr 1

lemma tsAt_eq_get (l : List Notification) (j : Nat) (hj : j < l.length) :
    tsAt l j = (l.get ⟨j, hj⟩).Timestamp := by
  simp [tsAt, List.getElem?_eq_getElem hj]

lemma findOldestLoop_spec :
    ∀ (rest full : List Notification) (i oldestIdx : Nat) (oldestTime : Int),
      full.drop i = rest →
      oldestIdx < i →
      i ≤ full.length →
      tsAt full oldestIdx = oldestTime →
      (∀ j, j < i → oldestTime ≤ tsAt full j) →
      (∀ j, j < oldestIdx → oldestTime < tsAt full j) →
      (findOldestLoop rest i oldestIdx oldestTime).1 < full.length ∧
      tsAt full (findOldestLoop rest i oldestIdx oldestTime).1 =
        (findOldestLoop rest i oldestIdx oldestTime).2 ∧
      (∀ j, j < full.length → (findOldestLoop rest i oldestIdx oldestTime).2 ≤ tsAt full j) ∧
      (∀ j, j < (findOldestLoop rest i oldestIdx oldestTime).1 →
        (findOldestLoop rest i oldestIdx oldestTime).2 < tsAt full j)
  | [], full, i, oldestIdx, oldestTime => by
    intro hdrop hoi hil hts hmin hstrict
    have hlen : full.length ≤ i := List.drop_eq_nil_iff.mp hdrop
    have hieq : i = full.length := le_antisymm hil hlen
    subst hieq
    exact ⟨hoi, hts, hmin, hstrict⟩
  | n :: rest', full, i, oldestIdx, oldestTime => by
    intro hdrop hoi hil hts hmin hstrict
    have hi_lt : i < full.length := by
      by_contra hcon
      push_neg at hcon
      rw [List.drop_eq_nil_iff.mpr hcon] at hdrop
      exact List.noConfusion hdrop
    have hfi : full[i]? = some n := by
      have h0 := congrArg (fun t : List Notification => t[0]?) hdrop
      simpa [List.getElem?_drop] using h0
    have htsi : tsAt full i = n.Timestamp := by simp [tsAt, hfi]
    have hdrop' : full.drop (i + 1) = rest' := by
      rw [← List.drop_drop, hdrop]
      rfl
    by_cases hlt : n.Timestamp < oldestTime
    · have hrec := findOldestLoop_spec rest' full (i + 1) i n.Timestamp hdrop'
        (Nat.lt_succ_self i) hi_lt htsi
        (fun j hj => by
          rcases Nat.lt_succ_iff_lt_or_eq.mp hj with h | h
          · exact le_of_lt (lt_of_lt_of_le hlt (hmin j h))
          · subst h
            exact le_of_eq htsi.symm)
        (fun j hj => lt_of_lt_of_le hlt (hmin j hj))
      simpa [findOldestLoop, if_pos hlt] using hrec
    · have hrec := findOldestLoop_spec rest' full (i + 1) oldestIdx oldestTime hdrop'
        (Nat.lt_succ_of_lt hoi) hi_lt hts
        (fun j hj => by
          rcases Nat.lt_succ_iff_lt_or_eq.mp hj with h | h
          · exact hmin j h
          · subst h
            rw [htsi]
            exact le_of_not_lt hlt)
        hstrict
      simpa [findOldestLoop, if_neg hlt] using hrec

lemma findOldest_spec (l : List Notification) (hne : l ≠ []) :
    ∃ i, findOldestNoticationIndex l = some i ∧ i < l.length ∧
      (∀ j, j < l.length → tsAt l i ≤ tsAt l j) ∧
      (∀ j, j < i → tsAt l i < tsAt l j) := by
  match l, hne with
  | n0 :: rest, _ =>
    have h := findOldestLoop_spec rest (n0 :: rest) 1 0 n0.Timestamp rfl
      Nat.zero_lt_one (by simp) (by simp [tsAt])
      (fun j hj => by
        have hj0 : j = 0 := Nat.lt_one_iff.mp hj
        subst hj0
        simp [tsAt])
      (fun j hj => absurd hj (Nat.not_lt_zero j))
    refine ⟨(findOldestLoop rest 1 0 n0.Timestamp).1, rfl, h.1, ?_, ?_⟩
    · intro j hj
      rw [h.2.1]
      exact h.2.2.1 j hj
    · intro j hj
      rw [h.2.1]
      exact h.2.2.2 j hj

lemma replaceFirst_length :
    ∀ (l : List Notification) (n : Notification), (replaceFirst l n).length = l.length
  | [], _ => rfl
  | e :: rest, n => by
    by_cases h : e.Id = n.Id <;> simp [replaceFirst, h, replaceFirst_length rest n]

lemma addNotification_evict (maxNotifications : Nat) (l : List Notification)
    (n : Notification) (hany : (l.any fun e => e.Id = n.Id) = false)
    (h1 : 0 < maxNotifications) (h2 : maxNotifications ≤ l.length) :
    ∃ i, ∃ _ : i < l.length,
      NotificationState.AddNotification maxNotifications l n = l.eraseIdx i ++ [n] ∧
      (∀ j, j < l.length → tsAt l i ≤ tsAt l j) ∧
      (∀ j, j < i → tsAt l i < tsAt l j) ∧
      (NotificationState.AddNotification maxNotifications l n).length = l.length := by
  have hne : l ≠ [] := List.length_pos.mp (lt_of_lt_of_le h1 h2)
  obtain ⟨i, hfind, hilen, hmin, hstrict⟩ := findOldest_spec l hne
  have heq : NotificationState.AddNotification maxNotifications l n = l.eraseIdx i ++ [n] := by
    simp [NotificationState.AddNotification, hany, hfind, h1, h2]
  refine ⟨i, hilen, heq, hmin, hstrict, ?_⟩
  rw [heq]
  simp [List.length_eraseIdx, hilen]
  omega

/-!
## Claim theorems (first group)
-/

/-- C9: `CleanupExpiredNotifications` removes exactly the records whose
derived lifetime has passed (`Timeout > 0` and `now` strictly after
`Timestamp + Timeout` seconds) and no others, returns precisely the ids
of the removed records in stored order, and keeps the surviving records
in their stored relative order. -/
theorem CleanupExpiredNotifications_spec (l : List Notification) (now : Int) :
    NotificationState.CleanupExpiredNotifications l now =
      ((l.filter (fun n => IsExpired n now)).map (fun n => n.Id),
       l.filter (fun n => !(IsExpired n now))) ∧
    ∀ n : Notification, IsExpired n now = true ↔
      0 < n.Timeout ∧ n.Timestamp + (n.Timeout : Int) * nsPerSec < now :=
  ⟨cleanup_eq l now, fun n => isExpired_iff n now⟩

/-- Witness for C9 at a concrete store and time. -/
theorem CleanupExpiredNotifications_spec_wit :
    NotificationState.CleanupExpiredNotifications [demoN1, demoN2] 7000000000 =
      (([demoN1, demoN2].filter (fun n => IsExpired n 7000000000)).map (fun n => n.Id),
       [demoN1, demoN2].filter (fun n => !(IsExpired n 7000000000))) ∧
    ∀ n : Notification, IsExpired n 7000000000 = true ↔
      0 < n.Timeout ∧ n.Timestamp + (n.Timeout : Int) * nsPerSec < 7000000000 :=
  CleanupExpiredNotifications_spec [demoN1, demoN2] 7000000000

/-- C3 counterexample: `NextId` wraps per the 32-bit width, so over a
long enough run the same id is returned twice: call 1 and call
`2^32 + 1` (counter starting at 0, as in `NewNotificationState`) return
the same value. -/
theorem NextId_reuses_after_wrap :
    nextIdIter 0 1 = nextIdIter 0 (UINT32MOD + 1) ∧ (1 : Nat) ≠ UINT32MOD + 1 := by
  constructor
  · have h1 : nextIdIter 0 1 = (0 + 0 + 1) % UINT32MOD := nextIdIter_succ 0 0
    have h2 := nextIdIter_succ 0 UINT32MOD
    rw [h1, h2]
    decide
  · decide

/-- C3 (amended): successive `NextId` values from a fresh counter are
pairwise distinct as long as no more than `2^32` calls are made; the
`i`-th and `j`-th returned ids differ whenever `1 ≤ i < j ≤ 2^32`. -/
theorem NextId_distinct_within_period (i j : Nat) (hi : 1 ≤ i) (hij : i < j)
    (hj : j ≤ UINT32MOD) : nextIdIter 0 i ≠ nextIdIter 0 j := by
  obtain ⟨i1, rfl⟩ : ∃ i1, i = i1 + 1 := ⟨i - 1, by omega⟩
  obtain ⟨j1, rfl⟩ : ∃ j1, j = j1 + 1 := ⟨j - 1, by omega⟩
  rw [nextIdIter_succ, nextIdIter_succ]
  have e1 : (0 + i1 + 1) % UINT32MOD = i1 + 1 := by
    rw [Nat.mod_eq_of_lt (by omega)]
    omega
  by_cases hcase : j1 + 1 < UINT32MOD
  · have e2 : (0 + j1 + 1) % UINT32MOD = j1 + 1 := by
      rw [Nat.mod_eq_of_lt (by omega)]
      omega
    rw [e1, e2]
    omega
  · have hje : 0 + j1 + 1 = UINT32MOD := by omega
    rw [e1, hje, Nat.mod_self]
    omega

/-- Witness for C3 at concrete call indices. -/
theorem NextId_distinct_within_period_wit : nextIdIter 0 1 ≠ nextIdIter 0 2 :=
  NextId_distinct_within_period 1 2 (by decide) (by decide) (by decide)

/-- C1: for a notification whose id is not already present, if
`maxNotifications = 0` the store is unbounded (`AddNotification` just
appends); if `0 < maxNotifications ≤ count`, `AddNotification` evicts
exactly one record — one with the earliest `Timestamp`, strictly earlier
than every record before it (so ties go to the lowest index) — then
appends, leaving the count unchanged (in particular `N` records stay `N`
when `N = maxNotifications`). -/
theorem AddNotification_capacity_eviction (maxNotifications : Nat)
    (l : List Notification) (n : Notification)
    (hfresh : ∀ e ∈ l, e.Id ≠ n.Id) :
    (maxNotifications = 0 →
      NotificationState.AddNotification maxNotifications l n = l ++ [n]) ∧
    (0 < maxNotifications → maxNotifications ≤ l.length →
      ∃ i, ∃ hi : i < l.length,
        NotificationState.AddNotification maxNotifications l n = l.eraseIdx i ++ [n] ∧
        (∀ m ∈ l, (l.get ⟨i, hi⟩).Timestamp ≤ m.Timestamp) ∧
        (∀ j, ∀ hj : j < i,
          (l.get ⟨i, hi⟩).Timestamp < (l.get ⟨j, Nat.lt_trans hj hi⟩).Timestamp) ∧
        (NotificationState.AddNotification maxNotifications l n).length = l.length) := by
  have hany : (l.any fun e => e.Id = n.Id) = false := by
    rw [List.any_eq_false]
    intro e he
    simpa using hfresh e he
  constructor
  · intro h0
    subst h0
    simp [NotificationState.AddNotification, hany]
  · intro h1 h2
    obtain ⟨i, hi, heq, hmin, hstrict, hlen⟩ :=
      addNotification_evict maxNotifications l n hany h1 h2
    refine ⟨i, hi, heq, ?_, ?_, hlen⟩
    · intro m hm
      obtain ⟨⟨j, hj⟩, rfl⟩ := List.mem_iff_get.mp hm
      have h := hmin j hj
      rwa [tsAt_eq_get l i hi, tsAt_eq_get l j hj] at h
    · intro j hj
      have h := hstrict j hj
      rwa [tsAt_eq_get l i hi, tsAt_eq_get l j (Nat.lt_trans hj hi)] at h

/-- Witness for C1: inserting a fresh id into a store of 2 records with
`maxNotifications = 2` evicts the oldest and keeps the count at 2. -/
theorem AddNotification_capacity_eviction_wit :
    ∃ i, ∃ hi : i < [demoN1, demoN3].length,
      NotificationState.AddNotification 2 [demoN1, demoN3] demoN2 =
        [demoN1, demoN3].eraseIdx i ++ [demoN2] ∧
      (∀ m ∈ [demoN1, demoN3], ([demoN1, demoN3].get ⟨i, hi⟩).Timestamp ≤ m.Timestamp) ∧
      (∀ j, ∀ hj : j < i,
        ([demoN1, demoN3].get ⟨i, hi⟩).Timestamp <
          ([demoN1, demoN3].get ⟨j, Nat.lt_trans hj hi⟩).Timestamp) ∧
      (NotificationState.AddNotification 2 [demoN1, demoN3] demoN2).length =
        [demoN1, demoN3].length :=
  (AddNotification_capacity_eviction 2 [demoN1, demoN3] demoN2 (by decide)).2
    (by decide) (by decide)

/-- C10: every `AddNotification` call changes the count by at most one:
replacing an existing id keeps the count; an append below the limit adds
one; an append at or above a positive limit evicts exactly one record
and keeps the count — so a count already above the limit is not brought
back down by a single insert. -/
theorem AddNotification_count (maxNotifications : Nat) (l : List Notification)
    (n : Notification) :
    ((l.any fun e => e.Id = n.Id) = true →
      (NotificationState.AddNotification maxNotifications l n).length = l.length) ∧
    ((l.any fun e => e.Id = n.Id) = false →
      (0 < maxNotifications → maxNotifications ≤ l.length →
        (NotificationState.AddNotification maxNotifications l n).length = l.length) ∧
      (¬(0 < maxNotifications ∧ maxNotifications ≤ l.length) →
        (NotificationState.AddNotification maxNotifications l n).length = l.length + 1) ∧
      (0 < maxNotifications → maxNotifications < l.length →
        maxNotifications < (NotificationState.AddNotification maxNotifications l n).length)) := by
  constructor
  · intro hany
    simp [NotificationState.AddNotification, hany, replaceFirst_length]
  · intro hany
    refine ⟨?_, ?_, ?_⟩
    · intro h1 h2
      obtain ⟨i, hi, _, _, _, hlen⟩ := addNotification_evict maxNotifications l n hany h1 h2
      exact hlen
    · intro hncond
      simp [NotificationState.AddNotification, hany, hncond]
    · intro h1 h2
      obtain ⟨i, hi, _, _, _, hlen⟩ :=
        addNotification_evict maxNotifications l n hany h1 (le_of_lt h2)
      omega

/-- Witness for C10: a fresh insert at capacity 1 into a 1-record store
keeps the count at 1. -/
theorem AddNotification_count_wit :
    (NotificationState.AddNotification 1 [demoN1] demoN2).length = [demoN1].length :=
  ((AddNotification_count 1 [demoN1] demoN2).2 (by decide)).1 (by decide) (by decide)

lemma removeLoop_not_found :
    ∀ (l : List Notification) (id : Nat), (∀ e ∈ l, e.Id ≠ id) →
      removeNotificationLoop l id = (l, false)
  | [], _, _ => rfl
  | e :: rest, id, h => by
    have he : e.Id ≠ id := h e (List.mem_cons_self e rest)
    have hrest := removeLoop_not_found rest id (fun x hx => h x (List.mem_cons_of_mem e hx))
    simp [removeNotificationLoop, he, hrest]

/-- C5 counterexample: when a stale timeout task exists for an id that
is absent from the store (reachable e.g. after a capacity eviction),
`Daemon.RemoveNotification` still returns the not-found error but
cancels and deletes that task — a Scheduler mutation. -/
theorem Daemon_RemoveNotification_mutates_scheduler :
    (Daemon.RemoveNotification ⟨[], [1], 0⟩ 1).ok = false ∧
    (Daemon.RemoveNotification ⟨[], [1], 0⟩ 1).state.timers ≠
      (DaemonState.mk [] [1] 0).timers := by
  decide

/-- C5 (amended): closing an id absent from the store returns the
not-found error, leaves the record collection and id counter unchanged,
triggers no render refresh and no closure event; the pending timer for
that id, if any, is cancelled and removed, and the timer set is
unchanged exactly when no timer was pending for that id. -/
theorem Daemon_RemoveNotification_absent (s : DaemonState) (id : Nat)
    (habs : ∀ e ∈ s.notifications, e.Id ≠ id) :
    (Daemon.RemoveNotification s id).ok = false ∧
    (Daemon.RemoveNotification s id).state.notifications = s.notifications ∧
    (Daemon.RemoveNotification s id).state.idCounter = s.idCounter ∧
    (Daemon.RemoveNotification s id).refreshed = false ∧
    (handleCloseCommand s id).2.1 = [] ∧
    (Daemon.RemoveNotification s id).state.timers = s.timers.filter (fun t => t ≠ id) ∧
    (id ∉ s.timers → (Daemon.RemoveNotification s id).state.timers = s.timers) := by
  have hrm := removeLoop_not_found s.notifications id habs
  refine ⟨?_, ?_, ?_, ?_, ?_, ?_, ?_⟩
  · simp [Daemon.RemoveNotification, NotificationState.RemoveNotification, hrm]
  · simp [Daemon.RemoveNotification, NotificationState.RemoveNotification, hrm]
  · simp [Daemon.RemoveNotification, NotificationState.RemoveNotification, hrm]
  · simp [Daemon.RemoveNotification, NotificationState.RemoveNotification, hrm]
  · simp [handleCloseCommand, Daemon.RemoveNotification,
      NotificationState.RemoveNotification, hrm]
  · simp [Daemon.RemoveNotification, NotificationState.RemoveNotification, hrm]
  · intro hnot
    have hfix : s.timers.filter (fun t => t ≠ id) = s.timers := by
      apply List.filter_eq_self.mpr
      intro t ht
      simp only [ne_eq, decide_eq_true_eq]
      intro he
      exact hnot (he ▸ ht)
    simp [Daemon.RemoveNotification, NotificationState.RemoveNotification, hrm, hfix]
    intro a ha he
    exact hnot (he ▸ ha)

/-- Witness for C5 at a concrete state with no stale timer. -/
theorem Daemon_RemoveNotification_absent_wit :
    (Daemon.RemoveNotification ⟨[demoN1], [], 0⟩ 2).ok = false ∧
    (Daemon.RemoveNotification ⟨[demoN1], [], 0⟩ 2).state.notifications =
      (DaemonState.mk [demoN1] [] 0).notifications ∧
    (Daemon.RemoveNotification ⟨[demoN1], [], 0⟩ 2).state.idCounter =
      (DaemonState.mk [demoN1] [] 0).idCounter ∧
    (Daemon.RemoveNotification ⟨[demoN1], [], 0⟩ 2).refreshed = false ∧
    (handleCloseCommand ⟨[demoN1], [], 0⟩ 2).2.1 = [] ∧
    (Daemon.RemoveNotification ⟨[demoN1], [], 0⟩ 2).state.timers =
      (DaemonState.mk [demoN1] [] 0).timers.filter (fun t => t ≠ 2) ∧
    (2 ∉ (DaemonState.mk [demoN1] [] 0).timers →
      (Daemon.RemoveNotification ⟨[demoN1], [], 0⟩ 2).state.timers =
        (DaemonState.mk [demoN1] [] 0).timers) :=
  Daemon_RemoveNotification_absent ⟨[demoN1], [], 0⟩ 2 (by decide)

/-- C4 is violated by the code: the DBus `CloseNotification` handler
removes the record through `state.RemoveNotification` directly and never
cancels the pending timeout task, so after an explicit protocol close of
id 1 the timer for 1 is still armed and, on firing, emits a
`NotificationClosed(1, Expired)` event.  (The control-channel path,
`Daemon.RemoveNotification`, does cancel the task — last conjunct.) -/
theorem CloseNotification_leaves_timer_armed :
    (NotificationServer.CloseNotification ⟨[demoN1], [1], 1⟩ 1).ok = true ∧
    (NotificationServer.CloseNotification ⟨[demoN1], [1], 1⟩ 1).state.notifications = [] ∧
    (NotificationServer.CloseNotification ⟨[demoN1], [1], 1⟩ 1).state.timers = [1] ∧
    (timerFire (NotificationServer.CloseNotification ⟨[demoN1], [1], 1⟩ 1).state 1).2 =
      [(1, CloseReason.expired)] ∧
    (Daemon.RemoveNotification ⟨[demoN1], [1], 1⟩ 1).state.timers = [] := by
  decide

lemma replaceFirst_set :
    ∀ (l : List Notification) (n : Notification), (l.any fun e => e.Id = n.Id) = true →
      ∃ i, ∃ hi : i < l.length,
        (l.get ⟨i, hi⟩).Id = n.Id ∧
        (∀ j, ∀ hj : j < i, (l.get ⟨j, Nat.lt_trans hj hi⟩).Id ≠ n.Id) ∧
        replaceFirst l n = l.set i n
  | [], n, h => by simp at h
  | e :: rest, n, h => by
    by_cases he : e.Id = n.Id
    · refine ⟨0, Nat.succ_pos _, he, ?_, ?_⟩
      · intro j hj
        exact absurd hj (Nat.not_lt_zero j)
      · simp [replaceFirst, he]
    · have hrest : (rest.any fun e => e.Id = n.Id) = true := by
        simp only [List.any_cons, Bool.or_eq_true] at h
        rcases h with h | h
        · exact absurd (of_decide_eq_true h) he
        · exact h
      obtain ⟨i, hi, hid, hbefore, heq⟩ := replaceFirst_set rest n hrest
      refine ⟨i + 1, Nat.succ_lt_succ hi, ?_, ?_, ?_⟩
      · simpa using hid
      · intro j hj
        cases j with
        | zero => simpa using he
        | succ k => simpa using hbefore k (Nat.lt_of_succ_lt_succ hj)
      · simp [replaceFirst, he, heq]

/-- C6: with `replaceId ≠ 0`, `HandleNotification` returns exactly
`replaceId` without touching the id counter, constructs the record
entirely from the new request (`Timestamp = now` included), and when a
record with that id exists the new record overwrites it at its position
(first matching index), keeping the count. -/
theorem HandleNotification_replace (cfg : Config) (s : DaemonState)
    (req : NotifyRequest) (now : Int) (hrep : req.replaceId ≠ 0) :
    (Daemon.HandleNotification cfg s req now).2.1 = req.replaceId ∧
    (Daemon.HandleNotification cfg s req now).1.idCounter = s.idCounter ∧
    (Daemon.HandleNotification cfg s req now).2.2.Id = req.replaceId ∧
    (Daemon.HandleNotification cfg s req now).2.2.Timestamp = now ∧
    (Daemon.HandleNotification cfg s req now).2.2.AppName = req.appName ∧
    (Daemon.HandleNotification cfg s req now).2.2.AppIcon = req.appIcon ∧
    (Daemon.HandleNotification cfg s req now).2.2.Summary = req.summary ∧
    (Daemon.HandleNotification cfg s req now).2.2.Body = req.body ∧
    (Daemon.HandleNotification cfg s req now).2.2.Hints = req.hints ∧
    (Daemon.HandleNotification cfg s req now).2.2.Actions = req.actions ∧
    (Daemon.HandleNotification cfg s req now).2.2.Widget = cfg.ewwDefaultNotificationKey ∧
    ((s.notifications.any fun e => e.Id = req.replaceId) = true →
      ∃ i, ∃ hi : i < s.notifications.length,
        (s.notifications.get ⟨i, hi⟩).Id = req.replaceId ∧
        (∀ j, ∀ hj : j < i,
          (s.notifications.get ⟨j, Nat.lt_trans hj hi⟩).Id ≠ req.replaceId) ∧
        (Daemon.HandleNotification cfg s req now).1.notifications =
          s.notifications.set i (Daemon.HandleNotification cfg s req now).2.2 ∧
        (Daemon.HandleNotification cfg s req now).1.notifications.length =
          s.notifications.length) := by
  have hcall : Daemon.HandleNotification cfg s req now =
      (⟨NotificationState.AddNotification cfg.maxNotifications s.notifications
          (buildNotification cfg req req.replaceId now),
        (if resolveTimeout cfg req.hints > 0
         then scheduleTimeout s.timers req.replaceId else s.timers),
        s.idCounter⟩,
       req.replaceId, buildNotification cfg req req.replaceId now) := by
    unfold Daemon.HandleNotification
    rw [if_pos hrep]
  rw [hcall]
  refine ⟨rfl, rfl, rfl, rfl, rfl, rfl, rfl, rfl, rfl, rfl, rfl, ?_⟩
  intro hany
  have hany' : (s.notifications.any
      fun e => e.Id = (buildNotification cfg req req.replaceId now).Id) = true := hany
  obtain ⟨i, hi, hid, hbefore, heq⟩ :=
    replaceFirst_set s.notifications (buildNotification cfg req req.replaceId now) hany'
  have hset : NotificationState.AddNotification cfg.maxNotifications s.notifications
      (buildNotification cfg req req.replaceId now) =
      s.notifications.set i (buildNotification cfg req req.replaceId now) := by
    unfold NotificationState.AddNotification
    rw [if_pos hany']
    exact heq
  exact ⟨i, hi, hid, hbefore, hset, by rw [hset, List.length_set]⟩

/-- Witness for C6: replacing id 1 keeps the id and the counter. -/
theorem HandleNotification_replace_wit :
    (Daemon.HandleNotification demoCfg ⟨[demoN1], [], 5⟩ demoReq 42).2.1 =
      demoReq.replaceId ∧
    (Daemon.HandleNotification demoCfg ⟨[demoN1], [], 5⟩ demoReq 42).1.idCounter =
      (DaemonState.mk [demoN1] [] 5).idCounter ∧
    (Daemon.HandleNotification demoCfg ⟨[demoN1], [], 5⟩ demoReq 42).2.2.Timestamp = 42 :=
  ⟨(HandleNotification_replace demoCfg ⟨[demoN1], [], 5⟩ demoReq 42 (by decide)).1,
   (HandleNotification_replace demoCfg ⟨[demoN1], [], 5⟩ demoReq 42 (by decide)).2.1,
   (HandleNotification_replace demoCfg ⟨[demoN1], [], 5⟩ demoReq 42 (by decide)).2.2.2.1⟩

lemma resolveTimeout_eq (cfg : Config) (hints : Hints) :
    resolveTimeout cfg hints =
      match GetByteHint hints HintKeyUrgency with
      | some 0 => cfg.timeoutLow
      | some 2 => cfg.timeoutCritical
      | _ => cfg.timeoutNormal := by
  rcases hb : GetByteHint hints HintKeyUrgency with _ | b
  · simp [resolveTimeout, GetUrgency, hb, ConfigKeyUrgency]
  · rcases b with _ | b
    · simp [resolveTimeout, GetUrgency, hb, ConfigKeyUrgency]
    · rcases b with _ | b
      · simp [resolveTimeout, GetUrgency, hb, ConfigKeyUrgency]
      · rcases b with _ | b
        · simp [resolveTimeout, GetUrgency, hb, ConfigKeyUrgency]
        · simp [resolveTimeout, GetUrgency, hb, ConfigKeyUrgency]

/-- C7: the stored record's timeout is the configured duration for the
urgency class read from the hints (byte 0 → `low`, byte 2 → `critical`,
any other byte or an absent/non-byte urgency hint → `normal`), and the
whole `HandleNotification` outcome is independent of the caller-supplied
`expireTimeout`. -/
theorem HandleNotification_timeout_from_config (cfg : Config) (s : DaemonState)
    (req : NotifyRequest) (now : Int) (t1 t2 : Int) :
    ((Daemon.HandleNotification cfg s req now).2.2.Timeout =
      match GetByteHint req.hints HintKeyUrgency with
      | some 0 => cfg.timeoutLow
      | some 2 => cfg.timeoutCritical
      | _ => cfg.timeoutNormal) ∧
    Daemon.HandleNotification cfg s { req with expireTimeout := t1 } now =
      Daemon.HandleNotification cfg s { req with expireTimeout := t2 } now := by
  constructor
  · show resolveTimeout cfg req.hints = _
    exact resolveTimeout_eq cfg req.hints
  · rfl

lemma handleNotification_timers (cfg : Config) (s : DaemonState)
    (req : NotifyRequest) (now : Int) :
    (Daemon.HandleNotification cfg s req now).1.timers =
      (if resolveTimeout cfg req.hints > 0
       then scheduleTimeout s.timers (Daemon.HandleNotification cfg s req now).2.1
       else s.timers) := rfl

/-- C8: a record with timeout 0 never expires — `IsExpired` is false at
every time, the sweep keeps it and never returns its id (every swept id
belongs to a record with nonzero timeout), and a `HandleNotification`
whose resolved timeout is 0 arms no timer. -/
theorem persistent_never_expires :
    (∀ (n : Notification) (now : Int), n.Timeout = 0 → IsExpired n now = false) ∧
    (∀ (l : List Notification) (now : Int) (n : Notification),
      n ∈ l → n.Timeout = 0 →
      n ∈ (NotificationState.CleanupExpiredNotifications l now).2) ∧
    (∀ (l : List Notification) (now : Int),
      ∀ id ∈ (NotificationState.CleanupExpiredNotifications l now).1,
        ∃ m ∈ l, m.Id = id ∧ m.Timeout ≠ 0) ∧
    (∀ (cfg : Config) (s : DaemonState) (req : NotifyRequest) (now : Int),
      resolveTimeout cfg req.hints = 0 →
      (Daemon.HandleNotification cfg s req now).1.timers = s.timers) := by
  refine ⟨?_, ?_, ?_, ?_⟩
  · intro n now h0
    simp [IsExpired, h0]
  · intro l now n hmem h0
    rw [cleanup_eq]
    exact List.mem_filter.mpr ⟨hmem, by simp [IsExpired, h0]⟩
  · intro l now id hid
    rw [cleanup_eq] at hid
    obtain ⟨m, hm, rfl⟩ := List.mem_map.mp hid
    have hmf := List.mem_filter.mp hm
    refine ⟨m, hmf.1, rfl, ?_⟩
    intro h0
    have hcon := hmf.2
    simp [IsExpired, h0] at hcon
  · intro cfg s req now h
    rw [handleNotification_timers, h]
    simp

/-- Witness for C8: the persistent record `demoN2` is not expired, is
kept by a sweep, and a create resolving to timeout 0 arms no timer. -/
theorem persistent_never_expires_wit :
    IsExpired demoN2 123456789 = false ∧
    demoN2 ∈ (NotificationState.CleanupExpiredNotifications [demoN1, demoN2] 7000000000).2 ∧
    (∀ id ∈ (NotificationState.CleanupExpiredNotifications [demoN1, demoN2] 7000000000).1,
      ∃ m ∈ [demoN1, demoN2], m.Id = id ∧ m.Timeout ≠ 0) ∧
    (Daemon.HandleNotification demoCfg ⟨[], [], 0⟩ demoReq 0).1.timers =
      (DaemonState.mk [] [] 0).timers :=
  ⟨persistent_never_expires.1 demoN2 123456789 rfl,
   persistent_never_expires.2.1 [demoN1, demoN2] 7000000000 demoN2 (by decide) rfl,
   persistent_never_expires.2.2.1 [demoN1, demoN2] 7000000000,
   persistent_never_expires.2.2.2 demoCfg ⟨[], [], 0⟩ demoReq 0 (by decide)⟩

lemma applyOp_live (t : StoreSt) (op : StoreOp) : (applyOp t op).live = t.live := by
  cases op <;> rfl

lemma applyOp_hintCells (t : StoreSt) (op : StoreOp) :
    (applyOp t op).heap.hintCells = t.heap.hintCells := by
  cases op <;> rfl

lemma applyOp_actionCells (t : StoreSt) (op : StoreOp) :
    (applyOp t op).heap.actionCells = t.heap.actionCells := by
  cases op <;> rfl

lemma applyOp_arrays_ne (t : StoreSt) (op : StoreOp) (b : Nat) (hb : b ≠ t.live) :
    (applyOp t op).heap.arrays b = t.heap.arrays b := by
  cases op <;> simp [applyOp, setLive, Function.update_noteq hb]

lemma applyOps_observe :
    ∀ (ops : List StoreOp) (t : StoreSt) (a : Nat), a ≠ t.live →
      observeArr (applyOps t ops).heap a = observeArr t.heap a
  | [], _, _, _ => rfl
  | op :: ops, t, a, ha => by
    show observeArr (applyOps (applyOp t op) ops).heap a = _
    have ha' : a ≠ (applyOp t op).live := by
      rw [applyOp_live]
      exact ha
    rw [applyOps_observe ops (applyOp t op) a ha']
    simp [observeArr, applyOp_arrays_ne t op a ha, applyOp_hintCells, applyOp_actionCells]

/-- C2: `GetNotifications` returns a snapshot whose observable content —
each record together with the hints map and actions list it references —
equals the live records at call time, and no sequence of subsequent
store mutations (upsert/replace, remove, sweep) changes what is
observable through that snapshot. -/
theorem GetNotifications_snapshot_no_alias (s : StoreSt)
    (hwf : s.live < s.heap.nextArr) (ops : List StoreOp) :
    observeArr (NotificationState.GetNotifications s).2.heap
        (NotificationState.GetNotifications s).1 =
      observeArr s.heap s.live ∧
    observeArr (applyOps (NotificationState.GetNotifications s).2 ops).heap
        (NotificationState.GetNotifications s).1 =
      observeArr s.heap s.live := by
  have hco : observeArr (NotificationState.GetNotifications s).2.heap
      (NotificationState.GetNotifications s).1 = observeArr s.heap s.live := by
    simp [NotificationState.GetNotifications, observeArr, Function.update_same]
  refine ⟨hco, ?_⟩
  have hne : (NotificationState.GetNotifications s).1 ≠
      (NotificationState.GetNotifications s).2.live := by
    simp [NotificationState.GetNotifications]
    omega
  rw [applyOps_observe ops _ _ hne, hco]

/-- Witness for C2 at a concrete one-record store followed by a remove. -/
theorem GetNotifications_snapshot_no_alias_wit :
    observeArr (NotificationState.GetNotifications demoStore).2.heap
        (NotificationState.GetNotifications demoStore).1 =
      observeArr demoStore.heap demoStore.live ∧
    observeArr (applyOps (NotificationState.GetNotifications demoStore).2
        [StoreOp.remove 1]).heap
        (NotificationState.GetNotifications demoStore).1 =
      observeArr demoStore.heap demoStore.live :=
  GetNotifications_snapshot_no_alias demoStore (by decide) [StoreOp.remove 1]

end EwwNotify
